import Mathlib

/-!
Verification of the Price Intelligence & Scraping Engine
(rodeoai price scraping design: scrapers, Celery tasks, price queries).

Shallow embedding conventions:
* Prices are rationals (`ℚ`); the SQL `Float` columns are modelled exactly.
* Timestamps are integers (`ℤ`), in seconds; `datetime.utcnow()` becomes an
  explicit `now` parameter; `timedelta(hours=24)` is `86400`, and
  `timedelta(days=n)` is `n * 86400`.
* The `product_prices` table is a `List ProductPrice` in row order; SQLAlchemy
  `query(...).filter(...)` is `List.filter`, `.first()` is `List.find?`,
  `.order_by(price.asc())` is `List.insertionSort` by price,
  `.limit(n)` is `List.take n`.
* The `price` column is declared `nullable=False` in the schema, so repository
  rows carry `price : ℚ`; the scraper result dict may still carry
  `price = None`, hence `Snapshot.price : Option ℚ`; committing a null price
  raises (`IntegrityError`), modelled as `Except.error`.
* Python `min(xs)` (guarded by `if xs` in the source) is `pyMin`;
  `round(x, 1)` / `round(x, 2)` are `round1` / `round2` (round to nearest;
  the sources never hit a tie, where Python would round half to even).
-/

/-- `ProductCatalog` row (`models.py`): the fields the engine reads/writes. -/
structure ProductCatalog where
  id : ℕ
  brand : String
  model : String
  category : String
  upc : String
  priority_level : String
  current_best_price : Option ℚ
  msrp : Option ℚ
  deriving Repr, DecidableEq

/-- `ProductPrice` row (`models.py`): one price record per fetch outcome.
`price` is `Column(Float, nullable=False)`, hence not an `Option`;
`last_verified` is nullable and only set on update. -/
structure ProductPrice where
  product_id : ℕ
  store_name : String
  product_url : String
  price : ℚ
  original_price : Option ℚ
  is_on_sale : Bool
  in_stock : Bool
  stock_level : Option String
  scraped_at : ℤ
  last_verified : Option ℤ
  deriving Repr, DecidableEq

/-- The dict returned by `BaseScraper.scrape_product` (see the docstring of the
abstract method and the two concrete scrapers). `price` can be `None` when the
price element is absent from the page. `scraped_at` is stamped by the scraper
with its own `datetime.utcnow()`. -/
structure Snapshot where
  price : Option ℚ
  original_price : Option ℚ
  is_on_sale : Bool
  in_stock : Bool
  stock_level : String
  scraped_at : ℤ
  deriving Repr, DecidableEq

/-- Database-layer failure of a commit (SQLAlchemy raises, the transaction is
rolled back). The only constraint the modelled write path can trip is the
NOT NULL constraint on `product_prices.price`. -/
inductive DbError where
  | integrityNullPrice
  deriving Repr, DecidableEq

/-- Row predicate used by the task's `db.query(ProductPrice).filter(...)`:
same product and same store. -/
def rowMatches (pid : ℕ) (store : String) (r : ProductPrice) : Bool :=
  r.product_id == pid && r.store_name == store

/-- Update the first list element satisfying `p` (SQLAlchemy `.first()` row
updated in place, then committed). -/
def updateFirst (p : α → Bool) (f : α → α) : List α → List α
  | [] => []
  | a :: l => if p a then f a :: l else a :: updateFirst p f l

/-- The field assignments of the `if existing_price:` branch of
`scrape_product_price` (`tasks.py`): every price field is overwritten from the
scraper result, and `scraped_at` / `last_verified` are set to
`datetime.utcnow()` — the write time, not the snapshot's own timestamp. -/
def applySnapshot (now : ℤ) (pr : ℚ) (result : Snapshot) (r : ProductPrice) :
    ProductPrice :=
  { r with
    price := pr
    original_price := result.original_price
    is_on_sale := result.is_on_sale
    in_stock := result.in_stock
    stock_level := some result.stock_level
    scraped_at := now
    last_verified := some now }

/-- The row built by the `else` (insert) branch of `scrape_product_price`:
`scraped_at` comes from the column default (`datetime.utcnow()` at insert
time); `last_verified` is not set and stays null. -/
def freshRow (now : ℤ) (pid : ℕ) (store url : String) (pr : ℚ)
    (result : Snapshot) : ProductPrice :=
  { product_id := pid
    store_name := store
    product_url := url
    price := pr
    original_price := result.original_price
    is_on_sale := result.is_on_sale
    in_stock := result.in_stock
    stock_level := some result.stock_level
    scraped_at := now
    last_verified := none }

/-- The database section of `scrape_product_price` (`tasks.py`, after a
successful scrape): look up the current row for (product, store); update it in
place if present, otherwise insert a new row; commit. A snapshot whose `price`
is `None` violates the NOT NULL constraint on `price` at commit time, so the
transaction raises and the repository is unchanged. There is no comparison
against the existing row's `scraped_at`. -/
def savePrice (now : ℤ) (pid : ℕ) (store url : String) (result : Snapshot)
    (repo : List ProductPrice) : Except DbError (List ProductPrice) :=
  match result.price with
  | none => .error .integrityNullPrice
  | some pr =>
    if repo.any (rowMatches pid store) then
      .ok (updateFirst (rowMatches pid store) (applySnapshot now pr result) repo)
    else
      .ok (repo ++ [freshRow now pid store url pr result])

/-- The record currently considered current for (product, store): the first
matching row, as returned by the task's `.first()` query. -/
def getCurrent (repo : List ProductPrice) (pid : ℕ) (store : String) :
    Option ProductPrice :=
  repo.find? (rowMatches pid store)

/-! ### Store Fetcher: `BootBarnScraper.scrape_product` (`scrapers.py`)

The scraper is embedded over an abstract page/fetch outcome: each CSS-selected
element is either absent, present with a money text that `float(...)` parses to
a value, or present with text that makes `float(...)` raise `ValueError`.
The body runs in an `Except` monad (an uncaught Python exception is `.error`);
the method itself wraps the body in `try/except Exception: return None`, so
its observable result is an `Option Snapshot`. Rate limiting, headers and
proxies have no effect on the returned data and are not modelled. -/

/-- A CSS-selected money element on the product page. -/
inductive Elem where
  | absent
  | malformed
  | val (q : ℚ)
  deriving Repr, DecidableEq

/-- The pieces of a Boot Barn product page the scraper inspects.
`availability_elem`: `none` if `.availability` is absent, otherwise whether its
text contains `"in stock"`. `shipping_elem` likewise for `"free shipping"`. -/
structure BootBarnPage where
  price_elem : Elem
  original_price_elem : Elem
  availability_elem : Option Bool
  shipping_elem : Option Bool
  deriving Repr, DecidableEq

/-- Outcome of `requests.get(product_url, ..., timeout=15)`: either an
exception (timeout, connection failure) or a response with a status code and a
parsed page. -/
inductive FetchOutcome where
  | requestRaised
  | resp (status : ℕ) (page : BootBarnPage)
  deriving Repr, DecidableEq

/-- `float(elem.text...) if elem else None`: absent gives `None`, malformed
text raises `ValueError`. -/
def parseMoney : Elem → Except Unit (Option ℚ)
  | .absent => .ok none
  | .malformed => .error ()
  | .val q => .ok (some q)

/-- `original_price is not None and original_price > price`: comparing a float
with `None` raises `TypeError`, which the catch-all turns into `None`. -/
def saleFlag : Option ℚ → Option ℚ → Except Unit Bool
  | none, _ => .ok false
  | some _, none => .error ()
  | some o, some p => .ok (decide (o > p))

def stockAvailable : String := "available"

def stockOut : String := "out_of_stock"

/-- The `try` body of `BootBarnScraper.scrape_product`; `nowScr` is the
`datetime.utcnow()` stamped into the returned dict. -/
def bootBarnBody (nowScr : ℤ) : FetchOutcome → Except Unit (Option Snapshot)
  | .requestRaised => .error ()
  | .resp status page =>
    if status ≠ 200 then .ok none
    else do
      let price ← parseMoney page.price_elem
      let original_price ← parseMoney page.original_price_elem
      let is_on_sale ← saleFlag original_price price
      let in_stock := page.availability_elem.getD false
      .ok (some
        { price := price
          original_price := original_price
          is_on_sale := is_on_sale
          in_stock := in_stock
          stock_level := if in_stock then stockAvailable else stockOut
          scraped_at := nowScr })

/-- `BootBarnScraper.scrape_product`: the body under
`except Exception: return None`. Every failure mode — exception or non-200
status — is reported as the same absent value `None`. -/
def bootBarnScrapeProduct (nowScr : ℤ) (f : FetchOutcome) : Option Snapshot :=
  match bootBarnBody nowScr f with
  | .error _ => none
  | .ok r => r

/-! ### Worker task: `scrape_product_price` (`tasks.py`)

`@celery_app.task(bind=True, max_retries=3)`. The abstract inputs are whether
a scraper is registered for the store, the scraper's result (already an
`Option`, see above), and the Celery retry counter `self.request.retries`. -/

/-- Value returned by the task body (the task is then acknowledged and never
re-run): either one of its error dicts, or the success dict. -/
inductive TaskResult where
  | errorNoScraper
  | errorScrapingFailed
  | ok (product_id : ℕ) (store : String) (price : Option ℚ)
  deriving Repr, DecidableEq

/-- One execution of `scrape_product_price` as observed by Celery. -/
inductive TaskOutcome where
  | completed (res : TaskResult) (repo : List ProductPrice)
  | retryAfter (countdown : ℕ)
  | maxRetriesExceeded
  deriving Repr, DecidableEq

def maxRetries : ℕ := 3

/-- One execution of `scrape_product_price(product_id, store_name, url)` with
`self.request.retries = retries`. A failed scrape (`result` falsy) returns an
error dict — no exception, hence no retry. Only an exception in the database
section reaches the `except` clause, which calls
`self.retry(countdown=2 ** self.request.retries)`; Celery re-raises
`MaxRetriesExceededError` once `retries` reaches `max_retries`. -/
def scrape_product_price (hasScraper : Bool) (fetch : Option Snapshot)
    (retries : ℕ) (now : ℤ) (pid : ℕ) (store url : String)
    (repo : List ProductPrice) : TaskOutcome :=
  if !hasScraper then .completed .errorNoScraper repo
  else
    match fetch with
    | none => .completed .errorScrapingFailed repo
    | some result =>
      match savePrice now pid store url result repo with
      | .ok repo2 => .completed (.ok pid store result.price) repo2
      | .error _ =>
        if retries < maxRetries then .retryAfter (2 ^ retries)
        else .maxRetriesExceeded

/-! ### Scheduler sweep: `scrape_all_stores` (`tasks.py`) -/

/-- A queued fetch job, i.e. one published `scrape_product_price.delay(...)`
message. -/
structure Job where
  product_id : ℕ
  store_name : String
  product_url : String
  deriving Repr, DecidableEq

/-- Celery `.delay(...)`: publish one message to the broker queue,
unconditionally. -/
def delayTask (q : List Job) (j : Job) : List Job := q ++ [j]

/-- `scrape_all_stores`: for every product and every configured store, resolve
the store URL and enqueue a task when one exists; count the enqueued tasks.
`q0` is the broker queue before the sweep. -/
def scrape_all_stores (products : List ProductCatalog) (stores : List String)
    (get_store_url : String → String → Option String) (q0 : List Job) :
    List Job × ℕ :=
  products.foldl (fun acc p =>
    stores.foldl (fun acc2 st =>
      match get_store_url p.upc st with
      | some url => (delayTask acc2.1 ⟨p.id, st, url⟩, acc2.2 + 1)
      | none => acc2) acc) (q0, 0)

/-- The jobs one sweep generates for one product. -/
def storeJobs (get_store_url : String → String → Option String)
    (p : ProductCatalog) (stores : List String) : List Job :=
  stores.filterMap (fun st =>
    (get_store_url p.upc st).map (fun url => ⟨p.id, st, url⟩))

/-- The jobs one whole sweep generates. -/
def sweepJobs (products : List ProductCatalog) (stores : List String)
    (get_store_url : String → String → Option String) : List Job :=
  products.foldr (fun p acc => storeJobs get_store_url p stores ++ acc) []

/-- Number of queued jobs for a given (product, store) pair. -/
def countPair (q : List Job) (pid : ℕ) (store : String) : ℕ :=
  (q.filter (fun j => j.product_id == pid && j.store_name == store)).length

/-! ### Query-side helpers -/

/-- Python `min(xs)` over a list of floats; the sources always guard the call
with `if xs`, so the empty case maps to the guarded `None`. -/
def pyMin : List ℚ → Option ℚ
  | [] => none
  | a :: l =>
    match pyMin l with
    | none => some a
    | some b => some (min a b)

/-- Round to the nearest integer (half away from the lower side); the model
of Python's `round(x)` away from ties, where the sources always are. -/
def pyRound (q : ℚ) : ℤ := Rat.floor (q + 1 / 2)

/-- Python `round(x, 1)` (the sources never hit a tie). -/
def round1 (q : ℚ) : ℚ := (pyRound (10 * q) : ℚ) / 10

/-- Python `round(x, 2)` (the sources never hit a tie). -/
def round2 (q : ℚ) : ℚ := (pyRound (100 * q) : ℚ) / 100

/-- `ORDER BY price ASC` comparison on rows. -/
def priceLE (a b : ProductPrice) : Prop := a.price ≤ b.price

instance : DecidableRel priceLE := fun a b =>
  inferInstanceAs (Decidable (a.price ≤ b.price))

instance : IsTotal ProductPrice priceLE := ⟨fun a b => le_total a.price b.price⟩

instance : IsTrans ProductPrice priceLE := ⟨fun _ _ _ h1 h2 => le_trans h1 h2⟩

/-- Separator of `f"{product.brand} {product.model}"`. -/
def nameSep : String := " "

/-! ### `PriceIntelligenceService.get_product_prices` (`price_intelligence.py`) -/

/-- One element of the returned `prices` list. -/
structure PriceEntry where
  store : String
  price : ℚ
  original_price : Option ℚ
  is_on_sale : Bool
  in_stock : Bool
  stock_level : Option String
  url : String
  last_updated : ℤ
  deriving Repr, DecidableEq

/-- The dict returned by `get_product_prices`. -/
structure PricesReport where
  product_id : ℕ
  product_name : String
  category : String
  lowest_price : Option ℚ
  average_price : Option ℚ
  msrp : Option ℚ
  prices : List PriceEntry
  total_stores : ℕ
  stores_in_stock : ℕ
  deriving Repr, DecidableEq

/-- The 24-hour freshness filter of the base query:
`product_id == pid` and `scraped_at > utcnow() - timedelta(hours=24)`. -/
def freshRows (now : ℤ) (pid : ℕ) (repo : List ProductPrice) :
    List ProductPrice :=
  repo.filter (fun r => r.product_id == pid && decide (now - 86400 < r.scraped_at))

/-- `get_product_prices(product_id, limit=10, include_out_of_stock=False)`.
Returns `none` for the `{"error": "Product not found"}` dict. Note the order
of operations: sort by price, truncate to `limit`, and only then compute
`lowest_price`, `average_price`, `total_stores` and `stores_in_stock` from the
truncated list. -/
def get_product_prices (now : ℤ) (catalog : List ProductCatalog)
    (repo : List ProductPrice) (product_id : ℕ) (limit : ℕ := 10)
    (include_out_of_stock : Bool := false) : Option PricesReport :=
  (catalog.find? (fun p => p.id == product_id)).map (fun product =>
    let base := freshRows now product_id repo
    let cand := if include_out_of_stock then base else base.filter (·.in_stock)
    let prices := (List.insertionSort priceLE cand).take limit
    let price_list := prices.map (fun p =>
      PriceEntry.mk p.store_name p.price p.original_price p.is_on_sale
        p.in_stock p.stock_level p.product_url p.scraped_at)
    let prices_values := (prices.filter (·.in_stock)).map (·.price)
    { product_id := product_id
      product_name := product.brand ++ nameSep ++ product.model
      category := product.category
      lowest_price := pyMin prices_values
      average_price :=
        if prices_values.isEmpty then none
        else some (round2 (prices_values.sum / (prices_values.length : ℚ)))
      msrp := product.msrp
      prices := price_list
      total_stores := price_list.length
      stores_in_stock := (price_list.filter (·.in_stock)).length })

/-! ### `update_best_prices_cache` (`tasks.py`) -/

/-- One `redis_client.setex(f"best_price:{product.id}", 3600, str(best_price))`
call. -/
structure CacheWrite where
  key_product_id : ℕ
  value : ℚ
  ttl : ℕ
  deriving Repr, DecidableEq

/-- The per-product query of `update_best_prices_cache`: in-stock rows of the
product scraped within the last 24 hours, ordered by ascending price. -/
def bestPriceRows (now : ℤ) (pid : ℕ) (repo : List ProductPrice) :
    List ProductPrice :=
  List.insertionSort priceLE (repo.filter (fun r =>
    r.product_id == pid && r.in_stock && decide (now - 86400 < r.scraped_at)))

/-- `update_best_prices_cache`: for every product with at least one fresh
in-stock row, take `prices[0].price`, store it in the product's denormalized
`current_best_price`, and issue a Redis `setex` with a 3600-second TTL.
Products with no such row are left untouched and get no cache write. -/
def update_best_prices_cache (now : ℤ) (products : List ProductCatalog)
    (repo : List ProductPrice) : List ProductCatalog × List CacheWrite :=
  (products.map (fun p =>
    match (bestPriceRows now p.id repo).head? with
    | some r => { p with current_best_price := some r.price }
    | none => p),
   products.filterMap (fun p =>
    (bestPriceRows now p.id repo).head?.map (fun r => ⟨p.id, r.price, 3600⟩)))

/-! ### `PriceIntelligenceService.detect_sales` (`price_intelligence.py`) -/

/-- One element of the returned sale list. -/
structure SaleEntry where
  product_id : ℕ
  product_name : String
  store : String
  sale_price : ℚ
  original_price : Option ℚ
  discount_percent : ℚ
  url : String
  deriving Repr, DecidableEq

/-- The discount computation of `detect_sales`:
`((original_price - price) / original_price * 100) if sale.original_price
else 0`, then `round(·, 1)`. Python truthiness makes both `None` and `0.0`
take the `else 0` branch. -/
def discountOf (s : ProductPrice) : ℚ :=
  round1 (match s.original_price with
    | some o => if o = 0 then 0 else (o - s.price) / o * 100
    | none => 0)

/-- The dict appended for one qualifying row joined with its product. -/
def saleEntryOf (p : ProductCatalog) (s : ProductPrice) : SaleEntry :=
  { product_id := p.id
    product_name := p.brand ++ nameSep ++ p.model
    store := s.store_name
    sale_price := s.price
    original_price := s.original_price
    discount_percent := discountOf s
    url := s.product_url }

/-- The row filter of `detect_sales`: on sale, in stock, and scraped after
`utcnow() - timedelta(days=days_lookback)`. -/
def saleRowHit (now : ℤ) (days_lookback : ℕ) (r : ProductPrice) : Bool :=
  r.is_on_sale && r.in_stock &&
    decide (now - (days_lookback : ℤ) * 86400 < r.scraped_at)

/-- `detect_sales(days_lookback=7)`: filter qualifying rows in repository
order, then join each against the catalog; rows whose product id has no
catalog entry are silently dropped (`if product:`). No ordering is applied to
the result. -/
def detect_sales (now : ℤ) (catalog : List ProductCatalog)
    (repo : List ProductPrice) (days_lookback : ℕ := 7) : List SaleEntry :=
  (repo.filter (saleRowHit now days_lookback)).filterMap (fun s =>
    (catalog.find? (fun p => p.id == s.product_id)).map (fun p => saleEntryOf p s))

/-! ### Helper lemmas -/

theorem ratFloor_eq_intFloor (q : ℚ) : Rat.floor q = ⌊q⌋ := by
  rw [Rat.floor_def', Rat.floor_def]

theorem pyMin_eq_none_iff (l : List ℚ) : pyMin l = none ↔ l = [] := by
  cases l with
  | nil => simp [pyMin]
  | cons a l =>
    simp only [pyMin]
    cases h : pyMin l <;> simp

theorem pyMin_mem {l : List ℚ} {m : ℚ} (h : pyMin l = some m) : m ∈ l := by
  induction l generalizing m with
  | nil => simp [pyMin] at h
  | cons a l ih =>
    simp only [pyMin] at h
    cases hl : pyMin l with
    | none =>
      rw [hl] at h
      simp at h
      simp [h]
    | some b =>
      rw [hl] at h
      simp at h
      subst h
      rcases min_choice a b with hc | hc
      · rw [hc]
        exact List.mem_cons_self a l
      · rw [hc]
        exact List.mem_cons_of_mem a (ih hl)

theorem pyMin_le {l : List ℚ} {m : ℚ} (h : pyMin l = some m) :
    ∀ x ∈ l, m ≤ x := by
  induction l generalizing m with
  | nil => simp [pyMin] at h
  | cons a l ih =>
    simp only [pyMin] at h
    intro x hx
    cases hl : pyMin l with
    | none =>
      have : l = [] := (pyMin_eq_none_iff l).mp hl
      subst this
      rw [hl] at h
      simp at h hx
      simp [h, hx]
    | some b =>
      rw [hl] at h
      simp at h
      subst h
      rcases List.mem_cons.mp hx with rfl | hx'
      · exact min_le_left x b
      · exact le_trans (min_le_right a b) (ih hl x hx')

theorem pyMin_isSome {l : List ℚ} (h : l ≠ []) : (pyMin l).isSome := by
  cases hl : pyMin l with
  | none => exact absurd ((pyMin_eq_none_iff l).mp hl) h
  | some m => rfl

theorem pyMin_eq_some_of {l : List ℚ} {m : ℚ} (hm : m ∈ l)
    (hle : ∀ x ∈ l, m ≤ x) : pyMin l = some m := by
  have hne : l ≠ [] := List.ne_nil_of_mem hm
  cases hl : pyMin l with
  | none => exact absurd ((pyMin_eq_none_iff l).mp hl) hne
  | some b =>
    have h1 : m ≤ b := hle b (pyMin_mem hl)
    have h2 : b ≤ m := pyMin_le hl m hm
    rw [le_antisymm h2 h1]

theorem pyMin_perm {l l' : List ℚ} (h : l.Perm l') : pyMin l = pyMin l' := by
  cases hl : pyMin l with
  | none =>
    have : l = [] := (pyMin_eq_none_iff l).mp hl
    subst this
    rw [(pyMin_eq_none_iff l').mpr (h.nil_eq.symm)]
  | some m =>
    exact (pyMin_eq_some_of (h.mem_iff.mp (pyMin_mem hl))
      (fun x hx => pyMin_le hl x (h.mem_iff.mpr hx))).symm

theorem pyMin_cons_of_le {x : ℚ} {xs : List ℚ} (h : ∀ y ∈ xs, x ≤ y) :
    pyMin (x :: xs) = some x := by
  refine pyMin_eq_some_of (List.mem_cons_self x xs) ?_
  intro y hy
  rcases List.mem_cons.mp hy with rfl | hy'
  · exact le_refl y
  · exact h y hy'

theorem pyMin_take_sorted (l : List ProductPrice) (k : ℕ) (hk : 1 ≤ k) :
    pyMin (((List.insertionSort priceLE l).take k).map (·.price)) =
      pyMin (l.map (·.price)) := by
  cases hs : List.insertionSort priceLE l with
  | nil =>
    have hperm := List.perm_insertionSort priceLE l
    rw [hs] at hperm
    rw [← hperm.nil_eq]
    simp
  | cons r t =>
    have hsorted : List.Sorted priceLE (r :: t) := by
      rw [← hs]
      exact List.sorted_insertionSort priceLE l
    have hle : ∀ b ∈ t, priceLE r b := List.rel_of_sorted_cons hsorted
    obtain ⟨k2, rfl⟩ : ∃ k2, k = k2 + 1 := ⟨k - 1, by omega⟩
    have h1 : pyMin (r.price :: (t.take k2).map (·.price)) = some r.price := by
      apply pyMin_cons_of_le
      intro y hy
      obtain ⟨b, hb, rfl⟩ := List.mem_map.mp hy
      exact hle b (List.mem_of_mem_take hb)
    have h2 : pyMin (l.map (·.price)) = some r.price := by
      have hperm : (r :: t).Perm l := by
        rw [← hs]
        exact List.perm_insertionSort priceLE l
      rw [← pyMin_perm (hperm.map (·.price))]
      apply pyMin_cons_of_le
      intro y hy
      obtain ⟨b, hb, rfl⟩ := List.mem_map.mp hy
      exact hle b hb
    rw [List.take_succ_cons, List.map_cons, h1, h2]

theorem find?_updateFirst (p : α → Bool) (f : α → α)
    (hf : ∀ a, p a = true → p (f a) = true) (l : List α) :
    (updateFirst p f l).find? p = (l.find? p).map f := by
  induction l with
  | nil => rfl
  | cons a l ih =>
    by_cases hpa : p a = true
    · simp [updateFirst, hpa, hf a hpa]
    · simp only [updateFirst, Bool.not_eq_true] at hpa ⊢
      simp [hpa, ih]

theorem mem_updateFirst {α : Type} {r : α} (p : α → Bool) (f : α → α)
    (l : List α) (h : r ∈ updateFirst p f l) :
    r ∈ l ∨ ∃ a, a ∈ l ∧ r = f a := by
  induction l with
  | nil => simp [updateFirst] at h
  | cons a l ih =>
    simp only [updateFirst] at h
    by_cases hpa : p a = true
    · simp only [hpa, if_true] at h
      rcases List.mem_cons.mp h with rfl | h2
      · exact Or.inr ⟨a, List.mem_cons_self a l, rfl⟩
      · exact Or.inl (List.mem_cons_of_mem a h2)
    · simp only [hpa, if_false] at h
      rcases List.mem_cons.mp h with rfl | h2
      · exact Or.inl (List.mem_cons_self r l)
      · rcases ih h2 with h3 | ⟨b, hb, rfl⟩
        · exact Or.inl (List.mem_cons_of_mem a h3)
        · exact Or.inr ⟨b, List.mem_cons_of_mem a hb, rfl⟩

/-! ### Concrete inputs used by witnesses and counterexamples -/

def bootBarn : String := "Boot Barn"

def urlA : String := "https://www.bootbarn.com/p/1"

/-- Scraper result with the newer `scraped_at` (t2 = 200). -/
def snapNewer : Snapshot :=
  { price := some 10
    original_price := none
    is_on_sale := false
    in_stock := true
    stock_level := stockAvailable
    scraped_at := 200 }

/-- Scraper result with the older `scraped_at` (t1 = 100). -/
def snapOlder : Snapshot :=
  { price := some 20
    original_price := none
    is_on_sale := false
    in_stock := true
    stock_level := stockAvailable
    scraped_at := 100 }

/-- C1 counterexample: writes for the same (product, store) delivered out of
order. The newer snapshot (`scraped_at` = 200) is written first at wall time
1000, the older one (`scraped_at` = 100) second at wall time 1001. The current
record ends with the older write's price 20, not the newer write's 10: the
second write is not a no-op and the record does not reflect the later
`scrapedAt`. -/
theorem savePrice_freshness_counterexample :
    snapOlder.scraped_at < snapNewer.scraped_at ∧
    (((savePrice 1000 1 bootBarn urlA snapNewer []).bind
        (fun repo1 => savePrice 1001 1 bootBarn urlA snapOlder repo1)).toOption.bind
        (fun repo2 => getCurrent repo2 1 bootBarn)).map (·.price) = some 20 ∧
    (20 : ℚ) ≠ 10 := by
  decide

/-- C1 (amended): the upsert of `scrape_product_price` is last-write-wins.
After any successful write for (product, store), the current record carries
exactly the fields of that (most recently applied) write, with `scraped_at`
set to the wall-clock write time; the snapshot's own `scrapedAt` is never
compared against the existing record, so an older-`scrapedAt` write delivered
later is not a no-op but replaces the record. -/
theorem savePrice_last_write_wins (now : ℤ) (pid : ℕ) (store url : String)
    (s : Snapshot) (repo repo2 : List ProductPrice) (pr : ℚ)
    (hpr : s.price = some pr)
    (hok : savePrice now pid store url s repo = .ok repo2) :
    ∃ r, getCurrent repo2 pid store = some r ∧ r.price = pr ∧
      r.original_price = s.original_price ∧ r.is_on_sale = s.is_on_sale ∧
      r.in_stock = s.in_stock ∧ r.scraped_at = now := by
  simp only [savePrice, hpr] at hok
  by_cases hany : repo.any (rowMatches pid store) = true
  · rw [if_pos hany] at hok
    obtain ⟨a, ha, hpa⟩ := List.any_eq_true.mp hany
    have hsome : (repo.find? (rowMatches pid store)).isSome :=
      List.find?_isSome.mpr ⟨a, ha, hpa⟩
    obtain ⟨b, hb⟩ := Option.isSome_iff_exists.mp hsome
    have hpres : ∀ x, rowMatches pid store x = true →
        rowMatches pid store (applySnapshot now pr s x) = true := by
      intro x hx
      simpa [rowMatches, applySnapshot] using hx
    refine ⟨applySnapshot now pr s b, ?_, rfl, rfl, rfl, rfl, rfl⟩
    have := find?_updateFirst (rowMatches pid store) (applySnapshot now pr s)
      hpres repo
    simp only [Except.ok.injEq] at hok
    rw [getCurrent, ← hok, this, hb, Option.map_some']
  · rw [if_neg hany] at hok
    simp only [Except.ok.injEq] at hok
    have hnone : repo.find? (rowMatches pid store) = none := by
      rw [List.find?_eq_none]
      intro x hx hpx
      exact hany (List.any_eq_true.mpr ⟨x, hx, hpx⟩)
    refine ⟨freshRow now pid store url pr s, ?_, rfl, rfl, rfl, rfl, rfl⟩
    rw [getCurrent, ← hok, List.find?_append, hnone, Option.none_or]
    have hmatch : rowMatches pid store (freshRow now pid store url pr s) = true := by
      simp [rowMatches, freshRow]
    simp [hmatch]

/-- C1 witness: the amended theorem applied to the counterexample's second
write (the out-of-order, older-`scrapedAt` snapshot). -/
theorem savePrice_last_write_wins_witness :
    ∃ r, getCurrent [applySnapshot 1001 20 snapOlder
        (freshRow 1000 1 bootBarn urlA 10 snapNewer)] 1 bootBarn = some r ∧
      r.price = 20 ∧ r.original_price = snapOlder.original_price ∧
      r.is_on_sale = snapOlder.is_on_sale ∧ r.in_stock = snapOlder.in_stock ∧
      r.scraped_at = 1001 :=
  savePrice_last_write_wins 1001 1 bootBarn urlA snapOlder
    [freshRow 1000 1 bootBarn urlA 10 snapNewer] _ 20 (by decide) rfl

/-- Scraper result whose parsed price is negative (e.g. a page whose price
text parses to a negative float); nothing in the pipeline validates the sign. -/
def snapNegative : Snapshot :=
  { price := some (-5)
    original_price := none
    is_on_sale := false
    in_stock := true
    stock_level := stockAvailable
    scraped_at := 100 }

/-- Scraper result with an absent price element: the returned dict carries
`price = None` (see `BootBarnScraper.scrape_product` when
`.product-price .price` matches nothing). -/
def snapNullPrice : Snapshot :=
  { price := none
    original_price := none
    is_on_sale := false
    in_stock := false
    stock_level := stockOut
    scraped_at := 100 }

/-- C7 counterexample: a snapshot whose parsed price is negative is committed
unchanged — the current record after the write has price −5 < 0. No execution
path validates non-negativity. -/
theorem savePrice_negative_price_counterexample :
    ((savePrice 1000 1 bootBarn urlA snapNegative []).toOption.bind
      (fun repo => getCurrent repo 1 bootBarn)).map (·.price) = some (-5) ∧
    ((-5 : ℚ) < 0) := by
  decide

/-- C7 (amended): every committed record has a present price — a null-price
snapshot makes the commit raise `IntegrityError` (NOT NULL on `price`) and
writes nothing — and every row the write adds or modifies carries exactly the
snapshot's parsed price, whatever its sign; non-negativity is not enforced. -/
theorem savePrice_price_presence (now : ℤ) (pid : ℕ) (store url : String)
    (s : Snapshot) (repo : List ProductPrice) :
    (s.price = none →
      savePrice now pid store url s repo = .error .integrityNullPrice) ∧
    (∀ pr repo2, s.price = some pr →
      savePrice now pid store url s repo = .ok repo2 →
      ∀ r ∈ repo2, r ∈ repo ∨ r.price = pr) := by
  constructor
  · intro hnone
    simp [savePrice, hnone]
  · intro pr repo2 hpr hok r hr
    simp only [savePrice, hpr] at hok
    by_cases hany : repo.any (rowMatches pid store) = true
    · rw [if_pos hany] at hok
      simp only [Except.ok.injEq] at hok
      rw [← hok] at hr
      rcases mem_updateFirst (rowMatches pid store) (applySnapshot now pr s)
        repo hr with h2 | ⟨a, _, rfl⟩
      · exact Or.inl h2
      · exact Or.inr rfl
    · rw [if_neg hany] at hok
      simp only [Except.ok.injEq] at hok
      rw [← hok] at hr
      rcases List.mem_append.mp hr with h2 | h2
      · exact Or.inl h2
      · rw [List.mem_singleton.mp h2]
        exact Or.inr rfl

/-- C7 witness: the null-price snapshot aborts the commit; the negative-price
snapshot yields a committed row whose price is the snapshot's. -/
theorem savePrice_price_presence_witness :
    savePrice 1000 1 bootBarn urlA snapNullPrice [] =
      .error .integrityNullPrice ∧
    (freshRow 1000 1 bootBarn urlA (-5) snapNegative ∈
        ([] : List ProductPrice) ∨
      (freshRow 1000 1 bootBarn urlA (-5) snapNegative).price = -5) :=
  ⟨(savePrice_price_presence 1000 1 bootBarn urlA snapNullPrice []).1 rfl,
   (savePrice_price_presence 1000 1 bootBarn urlA snapNegative []).2 (-5)
     [freshRow 1000 1 bootBarn urlA (-5) snapNegative] rfl rfl
     (freshRow 1000 1 bootBarn urlA (-5) snapNegative)
     (List.mem_singleton.mpr rfl)⟩

/-- In-stock, no-sale page with a plain price; used as a well-formed page. -/
def pageOk : BootBarnPage :=
  { price_elem := .val 10
    original_price_elem := .absent
    availability_elem := some true
    shipping_elem := some false }

/-- C3 counterexample: a transiently failing fetch is never retried. A timeout
(`requestRaised`) or an HTTP 503 makes the scraper return `None`; the task
then returns its error dict on the very first attempt (`retries = 0`) and is
acknowledged — not retried 3 times with backoff as claimed. -/
theorem scrape_product_price_no_retry_counterexample :
    bootBarnScrapeProduct 500 .requestRaised = none ∧
    bootBarnScrapeProduct 500 (.resp 503 pageOk) = none ∧
    scrape_product_price true none 0 1000 1 bootBarn urlA [] =
      .completed .errorScrapingFailed [] := by
  decide

/-- C3 (amended): only an exception raised in the task's database section is
retried: with `self.request.retries = r < max_retries = 3` the task re-enqueues
itself with countdown `2 ^ r` seconds (1 s, 2 s, 4 s — strictly increasing),
and once `r` reaches 3 it raises `MaxRetriesExceededError` and is terminally
failed. A fetch-level transient failure (timeout, 5xx, block, parse failure)
is swallowed by the scraper and the task completes with an error result on its
first attempt, with no retry at all. -/
theorem scrape_product_price_retry_behaviour (s : Snapshot) (retries : ℕ)
    (now : ℤ) (pid : ℕ) (store url : String) (repo : List ProductPrice)
    (e : DbError) (herr : savePrice now pid store url s repo = .error e) :
    (scrape_product_price true none retries now pid store url repo =
      .completed .errorScrapingFailed repo) ∧
    (retries < maxRetries →
      scrape_product_price true (some s) retries now pid store url repo =
        .retryAfter (2 ^ retries)) ∧
    (maxRetries ≤ retries →
      scrape_product_price true (some s) retries now pid store url repo =
        .maxRetriesExceeded) ∧
    (∀ i j : ℕ, i < j → (2 : ℕ) ^ i < 2 ^ j) := by
  refine ⟨rfl, ?_, ?_, ?_⟩
  · intro hlt
    simp [scrape_product_price, herr, hlt]
  · intro hge
    simp [scrape_product_price, herr, Nat.not_lt.mpr hge]
  · intro i j hij
    exact Nat.pow_lt_pow_right (by norm_num) hij

/-- C3 witness: with a snapshot whose commit raises, attempt 2 retries with
countdown 4 and attempt 3 is terminally failed. -/
theorem scrape_product_price_retry_behaviour_witness :
    scrape_product_price true (some snapNullPrice) 2 1000 1 bootBarn urlA [] =
      .retryAfter 4 ∧
    scrape_product_price true (some snapNullPrice) 3 1000 1 bootBarn urlA [] =
      .maxRetriesExceeded :=
  ⟨by
    have h := (scrape_product_price_retry_behaviour snapNullPrice 2 1000 1
      bootBarn urlA [] .integrityNullPrice rfl).2.1 (by decide)
    simpa using h,
   (scrape_product_price_retry_behaviour snapNullPrice 3 1000 1
      bootBarn urlA [] .integrityNullPrice rfl).2.2.1 (by decide)⟩

def ariat : String := "Ariat"

def heritage : String := "Heritage Roughstock"

def bootsCat : String := "boots"

def upcA : String := "0123456789012"

def priorityHigh : String := "high"

/-- A catalog product used in concrete runs. -/
def productA : ProductCatalog :=
  { id := 1
    brand := ariat
    model := heritage
    category := bootsCat
    upc := upcA
    priority_level := priorityHigh
    current_best_price := none
    msrp := none }

/-- A URL mapping that knows one URL for every (upc, store). -/
def constUrl : String → String → Option String := fun _ _ => some urlA

/-- C4 counterexample: running the sweep again while the job from the first
sweep is still queued enqueues a second job for the same (product, store):
the queue ends with 2 jobs for the pair, not 1. There is no dedup check. -/
theorem scrape_all_stores_dedup_counterexample :
    countPair ((scrape_all_stores [productA] [bootBarn] constUrl
      ((scrape_all_stores [productA] [bootBarn] constUrl []).1)).1)
      1 bootBarn = 2 ∧ (2 : ℕ) ≠ 1 := by
  decide

/-- C4 (amended): enqueuing is unconditional. A sweep appends one job per
(product, store) pair with a known URL to whatever is already in the broker
queue — regardless of existing Queued/Running jobs — and `tasks_queued` counts
exactly those appended jobs. Duplicate sweeps therefore produce duplicate
jobs. -/
theorem scrape_all_stores_appends (products : List ProductCatalog)
    (stores : List String) (get_store_url : String → String → Option String)
    (q0 : List Job) :
    (scrape_all_stores products stores get_store_url q0).1 =
      q0 ++ sweepJobs products stores get_store_url ∧
    (scrape_all_stores products stores get_store_url q0).2 =
      (sweepJobs products stores get_store_url).length := by
  have inner : ∀ (p : ProductCatalog) (sts : List String) (q : List Job)
      (n : ℕ),
      (sts.foldl (fun acc2 st =>
        match get_store_url p.upc st with
        | some url => (delayTask acc2.1 ⟨p.id, st, url⟩, acc2.2 + 1)
        | none => acc2) (q, n)) =
      (q ++ storeJobs get_store_url p sts,
        n + (storeJobs get_store_url p sts).length) := by
    intro p sts
    induction sts with
    | nil => intro q n; simp [storeJobs]
    | cons st rest ih =>
      intro q n
      cases hst : get_store_url p.upc st with
      | none =>
        simp only [List.foldl_cons, storeJobs, List.filterMap_cons, hst,
          Option.map_none']
        exact ih q n
      | some url =>
        simp only [List.foldl_cons, storeJobs, List.filterMap_cons, hst,
          Option.map_some']
        rw [ih]
        simp only [delayTask, Prod.mk.injEq, storeJobs]
        constructor
        · simp
        · simp only [List.length_cons]
          omega
  have outer : ∀ (ps : List ProductCatalog) (q : List Job) (n : ℕ),
      (ps.foldl (fun acc p =>
        stores.foldl (fun acc2 st =>
          match get_store_url p.upc st with
          | some url => (delayTask acc2.1 ⟨p.id, st, url⟩, acc2.2 + 1)
          | none => acc2) acc) (q, n)) =
      (q ++ sweepJobs ps stores get_store_url,
        n + (sweepJobs ps stores get_store_url).length) := by
    intro ps
    induction ps with
    | nil => intro q n; simp [sweepJobs]
    | cons p rest ih =>
      intro q n
      simp only [List.foldl_cons]
      rw [inner p stores q n, ih]
      simp only [sweepJobs, List.foldr_cons, Prod.mk.injEq]
      constructor
      · simp [List.append_assoc]
      · simp only [List.length_append]
        omega
  have h := outer products q0 0
  rw [scrape_all_stores, h]
  exact ⟨rfl, by simp⟩

/-- An in-stock page whose price element text does not parse as a float
(`float(...)` raises `ValueError`). -/
def pageMalformed : BootBarnPage :=
  { price_elem := .malformed
    original_price_elem := .absent
    availability_elem := some true
    shipping_elem := none }

/-- C5 counterexample: a timeout, an HTTP 500, a blocked (403) response and a
parse failure all make `scrape_product` return literally the same untyped
absent value `None` — there is no typed FetchError distinguishing Timeout,
HTTPError, BlockedOrCaptcha and ParseError. -/
theorem bootBarn_untyped_failures_counterexample :
    bootBarnScrapeProduct 500 .requestRaised = none ∧
    bootBarnScrapeProduct 500 (.resp 500 pageOk) = none ∧
    bootBarnScrapeProduct 500 (.resp 403 pageOk) = none ∧
    bootBarnScrapeProduct 500 (.resp 200 pageMalformed) = none := by
  decide

/-- C5 (amended): the fetcher never propagates an exception into the calling
worker — the catch-all `except Exception` maps every raising execution of the
body to the return value `None` — but the failure is reported as that untyped
absent result, not as a typed error. -/
theorem bootBarnScrapeProduct_never_raises (nowScr : ℤ) (f : FetchOutcome)
    (e : Unit) (herr : bootBarnBody nowScr f = .error e) :
    bootBarnScrapeProduct nowScr f = none := by
  simp [bootBarnScrapeProduct, herr]

/-- C5 witness: the timeout execution raises in the body and is returned as
`None`. -/
theorem bootBarnScrapeProduct_never_raises_witness :
    bootBarnScrapeProduct 500 .requestRaised = none :=
  bootBarnScrapeProduct_never_raises 500 .requestRaised () rfl

/-- The spec's flagship sale record: price 189.99, original price 249.99,
on sale, in stock, recently scraped. -/
def saleRow : ProductPrice :=
  { product_id := 1
    store_name := bootBarn
    product_url := urlA
    price := 18999 / 100
    original_price := some (24999 / 100)
    is_on_sale := true
    in_stock := true
    stock_level := some stockAvailable
    scraped_at := 999000
    last_verified := none }

/-- C8: every sale entry produced by `detect_sales` whose record has a present
(non-zero) original price reports
`discount_percent = round((original_price - price) / original_price * 100, 1)`;
at `original_price = 249.99`, `price = 189.99` the reported discount is 24.0. -/
theorem detect_sales_discount_formula (now : ℤ)
    (catalog : List ProductCatalog) (repo : List ProductPrice) (d : ℕ)
    (e : SaleEntry) (he : e ∈ detect_sales now catalog repo d) (o : ℚ)
    (ho : e.original_price = some o) (ho0 : o ≠ 0) :
    e.discount_percent = round1 ((o - e.sale_price) / o * 100) ∧
    discountOf saleRow = 24 := by
  constructor
  · obtain ⟨s, _, hmap⟩ := List.mem_filterMap.mp he
    obtain ⟨p, _, rfl⟩ := Option.map_eq_some'.mp hmap
    simp only [saleEntryOf] at ho ⊢
    simp only [discountOf, ho]
    rw [if_neg ho0]
  · simp only [discountOf, saleRow]
    rw [if_neg (by norm_num : ¬((24999 : ℚ) / 100 = 0))]
    rw [round1]
    have h10 : (10 : ℚ) * ((24999 / 100 - 18999 / 100) / (24999 / 100) * 100)
        = 2000000 / 8333 := by
      norm_num
    rw [h10]
    have hfl : pyRound ((2000000 : ℚ) / 8333) = 240 := by
      rw [pyRound, ratFloor_eq_intFloor, Int.floor_eq_iff]
      constructor
      · norm_num
      · norm_num
    rw [hfl]
    norm_num

/-- C8 witness: the theorem applied to the entry produced for `saleRow`. -/
theorem detect_sales_discount_formula_witness :
    (saleEntryOf productA saleRow).discount_percent =
      round1 ((24999 / 100 - (saleEntryOf productA saleRow).sale_price) /
        (24999 / 100) * 100) ∧
    discountOf saleRow = 24 :=
  detect_sales_discount_formula 1000000 [productA] [saleRow] 7
    (saleEntryOf productA saleRow)
    (by
      rw [show detect_sales 1000000 [productA] [saleRow] 7
        = [saleEntryOf productA saleRow] from rfl]
      exact List.mem_singleton.mpr rfl)
    (24999 / 100) rfl (by norm_num)

/-- C9 counterexample: a record that is on sale, in stock and scraped within
the lookback window is dropped from the result when its product id has no
catalog row (`if product:`), so the query does not return exactly the
qualifying records. -/
theorem detect_sales_missing_product_counterexample :
    detect_sales 1000000 [] [saleRow] 7 = [] ∧
    saleRowHit 1000000 7 saleRow = true := by
  decide

/-- C9 (amended): `detect_sales(days_lookback)` returns exactly the entries
built from repository records that are flagged on sale, in stock, scraped
within the last `days_lookback` days, and whose product id resolves in the
catalog; entries appear in repository order and no ranking is applied. -/
theorem detect_sales_membership (now : ℤ) (catalog : List ProductCatalog)
    (repo : List ProductPrice) (d : ℕ) :
    (∀ s ∈ repo, saleRowHit now d s = true →
      ∀ p, catalog.find? (fun p2 => p2.id == s.product_id) = some p →
        saleEntryOf p s ∈ detect_sales now catalog repo d) ∧
    (∀ e ∈ detect_sales now catalog repo d,
      ∃ s ∈ repo, saleRowHit now d s = true ∧
        ∃ p, catalog.find? (fun p2 => p2.id == s.product_id) = some p ∧
          e = saleEntryOf p s) := by
  constructor
  · intro s hs hhit p hp
    apply List.mem_filterMap.mpr
    refine ⟨s, List.mem_filter.mpr ⟨hs, hhit⟩, ?_⟩
    rw [hp]
    rfl
  · intro e he
    obtain ⟨s, hs, hmap⟩ := List.mem_filterMap.mp he
    obtain ⟨hsr, hhit⟩ := List.mem_filter.mp hs
    obtain ⟨p, hp, he2⟩ := Option.map_eq_some'.mp hmap
    exact ⟨s, hsr, hhit, p, hp, he2.symm⟩

/-- C9 witness: the qualifying record with a catalog row is returned. -/
theorem detect_sales_membership_witness :
    saleEntryOf productA saleRow ∈ detect_sales 1000000 [productA] [saleRow] 7 :=
  (detect_sales_membership 1000000 [productA] [saleRow] 7).1 saleRow
    (List.mem_singleton.mpr rfl) rfl productA rfl

theorem pyMin_of_insertionSort_head (l : List ProductPrice)
    (r : ProductPrice) (h : (List.insertionSort priceLE l).head? = some r) :
    pyMin (l.map (·.price)) = some r.price := by
  cases hs : List.insertionSort priceLE l with
  | nil =>
    rw [hs] at h
    simp at h
  | cons a t =>
    rw [hs] at h
    simp only [List.head?_cons, Option.some.injEq] at h
    subst h
    have hsorted : List.Sorted priceLE (a :: t) := by
      rw [← hs]
      exact List.sorted_insertionSort priceLE l
    have hperm : (a :: t).Perm l := by
      rw [← hs]
      exact List.perm_insertionSort priceLE l
    rw [← pyMin_perm (hperm.map (·.price))]
    simp only [List.map_cons]
    apply pyMin_cons_of_le
    intro y hy
    obtain ⟨b, hb, rfl⟩ := List.mem_map.mp hy
    exact List.rel_of_sorted_cons hsorted b hb

/-- C6: for every product with at least one in-stock record scraped within
the last 24 hours, the cache refresh computes the minimum price `m` among
those records, issues the Redis write `setex(best_price:{id}, 3600, m)` — a
TTL of exactly one hour — and sets the product's denormalized
`current_best_price` to the same `m`. -/
theorem update_best_prices_cache_correct (now : ℤ)
    (products : List ProductCatalog) (repo : List ProductPrice)
    (p : ProductCatalog) (hp : p ∈ products) (m : ℚ)
    (hm : pyMin ((repo.filter (fun r => r.product_id == p.id && r.in_stock &&
      decide (now - 86400 < r.scraped_at))).map (·.price)) = some m) :
    (⟨p.id, m, 3600⟩ : CacheWrite) ∈
      (update_best_prices_cache now products repo).2 ∧
    { p with current_best_price := some m } ∈
      (update_best_prices_cache now products repo).1 := by
  cases hsort : List.insertionSort priceLE
      (repo.filter (fun r => r.product_id == p.id && r.in_stock &&
        decide (now - 86400 < r.scraped_at))) with
  | nil =>
    have hperm := List.perm_insertionSort priceLE
      (repo.filter (fun r => r.product_id == p.id && r.in_stock &&
        decide (now - 86400 < r.scraped_at)))
    rw [hsort] at hperm
    rw [← hperm.nil_eq] at hm
    simp [pyMin] at hm
  | cons r t =>
    have hhead : (List.insertionSort priceLE
        (repo.filter (fun r => r.product_id == p.id && r.in_stock &&
          decide (now - 86400 < r.scraped_at)))).head? = some r := by
      rw [hsort]
      rfl
    have hmin := pyMin_of_insertionSort_head _ r hhead
    rw [hm] at hmin
    have hrm : r.price = m := by
      exact (Option.some.injEq _ _).mp hmin.symm
    constructor
    · apply List.mem_filterMap.mpr
      refine ⟨p, hp, ?_⟩
      rw [bestPriceRows, hsort]
      simp [hrm]
    · apply List.mem_map.mpr
      refine ⟨p, hp, ?_⟩
      rw [bestPriceRows, hsort]
      simp [hrm]

/-- In-stock fresh row for product 1 at price 100. -/
def rowHundred : ProductPrice :=
  { product_id := 1
    store_name := bootBarn
    product_url := urlA
    price := 100
    original_price := none
    is_on_sale := false
    in_stock := true
    stock_level := some stockAvailable
    scraped_at := 999999
    last_verified := none }

/-- C6 witness: one fresh in-stock row at price 100 produces the cache write
(product 1, 100, TTL 3600) and sets `current_best_price := 100`. -/
theorem update_best_prices_cache_correct_witness :
    (⟨1, 100, 3600⟩ : CacheWrite) ∈
      (update_best_prices_cache 1000000 [productA] [rowHundred]).2 ∧
    { productA with current_best_price := some 100 } ∈
      (update_best_prices_cache 1000000 [productA] [rowHundred]).1 :=
  update_best_prices_cache_correct 1000000 [productA] [rowHundred] productA
    (List.mem_singleton.mpr rfl) 100 rfl

/-- Out-of-stock fresh row for product 1 at the given price. -/
def oosRowAt (q : ℚ) : ProductPrice :=
  { product_id := 1
    store_name := bootBarn
    product_url := urlA
    price := q
    original_price := none
    is_on_sale := false
    in_stock := false
    stock_level := some stockOut
    scraped_at := 999000
    last_verified := none }

/-- Eleven fresh rows for product 1: ten cheap out-of-stock rows and one
in-stock row at price 100. -/
def repoEleven : List ProductPrice :=
  [oosRowAt 1, oosRowAt 2, oosRowAt 3, oosRowAt 4, oosRowAt 5, oosRowAt 6,
   oosRowAt 7, oosRowAt 8, oosRowAt 9, oosRowAt 10, rowHundred]

/-- C2 counterexample: with the default `limit = 10`, the ten cheaper
out-of-stock rows displace the only in-stock row from the truncated result,
so `lowest_price` is 100 with `include_out_of_stock = False` but `None` with
`include_out_of_stock = True` — including out-of-stock records does change
`lowest_price`. -/
theorem get_product_prices_flag_counterexample :
    (get_product_prices 1000000 [productA] repoEleven 1 10 false).map
      (·.lowest_price) = some (some 100) ∧
    (get_product_prices 1000000 [productA] repoEleven 1 10 true).map
      (·.lowest_price) = some none ∧
    (some (100 : ℚ) ≠ none) := by
  decide

/-- C2 (amended): with `include_out_of_stock = False` (any positive `limit`),
`lowest_price` equals the minimum price among ALL in-stock records of the
product scraped within the last 24 hours — truncation cannot lose the minimum
because the query sorts ascending before taking `limit`. With
`include_out_of_stock = True` the value is unchanged provided the fresh
records number at most `limit`; beyond that, cheaper out-of-stock rows can
displace in-stock rows from the truncated list and change `lowest_price`
(see the counterexample). -/
theorem get_product_prices_lowest (now : ℤ) (catalog : List ProductCatalog)
    (repo : List ProductPrice) (pid : ℕ) (limit : ℕ)
    (product : ProductCatalog)
    (hfind : catalog.find? (fun p => p.id == pid) = some product)
    (hlim : 1 ≤ limit) :
    ((get_product_prices now catalog repo pid limit false).map
        (·.lowest_price) =
      some (pyMin (((freshRows now pid repo).filter (·.in_stock)).map
        (·.price)))) ∧
    ((freshRows now pid repo).length ≤ limit →
      (get_product_prices now catalog repo pid limit true).map
          (·.lowest_price) =
        (get_product_prices now catalog repo pid limit false).map
          (·.lowest_price)) := by
  have hfalse : (get_product_prices now catalog repo pid limit false).map
      (·.lowest_price) =
      some (pyMin (((freshRows now pid repo).filter (·.in_stock)).map
        (·.price))) := by
    simp only [get_product_prices, hfind, Option.map_some', Bool.false_eq_true,
      if_false]
    congr 1
    have hstk : ∀ a ∈ (List.insertionSort priceLE
        ((freshRows now pid repo).filter (·.in_stock))).take limit,
        a.in_stock = true := by
      intro a ha
      have h1 : a ∈ List.insertionSort priceLE
          ((freshRows now pid repo).filter (·.in_stock)) :=
        List.mem_of_mem_take ha
      have h2 : a ∈ (freshRows now pid repo).filter (·.in_stock) :=
        (List.perm_insertionSort priceLE _).mem_iff.mp h1
      exact (List.mem_filter.mp h2).2
    rw [List.filter_eq_self.mpr hstk]
    exact pyMin_take_sorted _ limit hlim
  refine ⟨hfalse, ?_⟩
  intro hlen
  rw [hfalse]
  simp only [get_product_prices, hfind, Option.map_some', if_true]
  congr 1
  have hlen2 : (List.insertionSort priceLE (freshRows now pid repo)).length ≤
      limit := by
    rw [(List.perm_insertionSort priceLE (freshRows now pid repo)).length_eq]
    exact hlen
  rw [List.take_of_length_le hlen2]
  have hperm : List.Perm
      (((List.insertionSort priceLE
        (freshRows now pid repo)).filter (·.in_stock)).map (·.price))
      ((((freshRows now pid repo)).filter (·.in_stock)).map (·.price)) :=
    ((List.perm_insertionSort priceLE (freshRows now pid repo)).filter _).map _
  exact pyMin_perm hperm

/-- C2 witness: one fresh in-stock row; `lowest_price` is its price under
both flags. -/
theorem get_product_prices_lowest_witness :
    ((get_product_prices 1000000 [productA] [rowHundred] 1 10 false).map
        (·.lowest_price) =
      some (pyMin (((freshRows 1000000 1 [rowHundred]).filter
        (·.in_stock)).map (·.price)))) ∧
    ((get_product_prices 1000000 [productA] [rowHundred] 1 10 true).map
        (·.lowest_price) =
      (get_product_prices 1000000 [productA] [rowHundred] 1 10 false).map
        (·.lowest_price)) :=
  ⟨(get_product_prices_lowest 1000000 [productA] [rowHundred] 1 10 productA
      rfl (by norm_num)).1,
   (get_product_prices_lowest 1000000 [productA] [rowHundred] 1 10 productA
      rfl (by norm_num)).2 (by decide)⟩

/-- Sorting rows by `priceLE` and projecting prices is the same as projecting
prices and sorting them ascending. -/
theorem map_price_insertionSort (l : List ProductPrice) :
    (List.insertionSort priceLE l).map (·.price) =
    List.insertionSort (· ≤ ·) (l.map (·.price)) := by
  have hperm : List.Perm ((List.insertionSort priceLE l).map (·.price))
      (List.insertionSort (· ≤ ·) (l.map (·.price))) :=
    ((List.perm_insertionSort priceLE l).map _).trans
      (List.perm_insertionSort _ _).symm
  have hs1 : List.Sorted (· ≤ ·) ((List.insertionSort priceLE l).map (·.price)) :=
    List.pairwise_map.mpr (List.sorted_insertionSort priceLE l)
  have hs2 : List.Sorted (· ≤ ·)
      (List.insertionSort (· ≤ ·) (l.map (·.price))) :=
    List.sorted_insertionSort _ _
  exact List.eq_of_perm_of_sorted hperm hs1 hs2

/-- C10: the price query truncates before aggregating. Whatever the flag, the
returned `prices` list has at most `limit` entries; its price column is
exactly the first `limit` of the ascending-sorted candidate prices (so the
entries are the lowest-priced current records, in ascending order); and
`total_stores`, `stores_in_stock` and `average_price` are computed from that
truncated list only — with more than `limit` current records they do not
describe all current records. -/
theorem get_product_prices_truncates (now : ℤ) (catalog : List ProductCatalog)
    (repo : List ProductPrice) (pid : ℕ) (limit : ℕ) (flag : Bool)
    (report : PricesReport)
    (hrep : get_product_prices now catalog repo pid limit flag = some report) :
    report.prices.length ≤ limit ∧
    report.prices.map (·.price) =
      (List.insertionSort (· ≤ ·)
        ((if flag then freshRows now pid repo
          else (freshRows now pid repo).filter (·.in_stock)).map
          (·.price))).take limit ∧
    List.Sorted (· ≤ ·) (report.prices.map (·.price)) ∧
    report.total_stores = report.prices.length ∧
    report.stores_in_stock = (report.prices.filter (·.in_stock)).length ∧
    report.average_price =
      (if ((report.prices.filter (·.in_stock)).map (·.price)).isEmpty then none
       else some (round2
         ((((report.prices.filter (·.in_stock)).map (·.price)).sum) /
          (((report.prices.filter (·.in_stock)).map (·.price)).length : ℚ)))) := by
  cases hf : catalog.find? (fun p => p.id == pid) with
  | none =>
    rw [get_product_prices, hf] at hrep
    simp at hrep
  | some product =>
    rw [get_product_prices, hf] at hrep
    simp only [Option.map_some', Option.some.injEq] at hrep
    subst hrep
    dsimp only
    have h2 : (((List.insertionSort priceLE
        (if flag then freshRows now pid repo
         else (freshRows now pid repo).filter (·.in_stock))).take limit).map
        (fun p => PriceEntry.mk p.store_name p.price p.original_price
          p.is_on_sale p.in_stock p.stock_level p.product_url
          p.scraped_at)).map (·.price) =
        (List.insertionSort (· ≤ ·)
          ((if flag then freshRows now pid repo
            else (freshRows now pid repo).filter (·.in_stock)).map
            (·.price))).take limit := by
      rw [List.map_map]
      rw [show ((·.price) ∘ fun p : ProductPrice =>
        PriceEntry.mk p.store_name p.price p.original_price p.is_on_sale
          p.in_stock p.stock_level p.product_url p.scraped_at) =
        (fun p : ProductPrice => p.price) from rfl]
      rw [List.map_take, map_price_insertionSort]
    refine ⟨?_, h2, ?_, rfl, rfl, ?_⟩
    · simp only [List.length_map]
      exact List.length_take_le _ _
    · rw [h2]
      exact List.Pairwise.sublist (List.take_sublist _ _)
        (List.sorted_insertionSort _ _)
    · simp only [List.filter_map, List.map_map, Function.comp_def]

/-- C10 witness: on the eleven-row repository the returned list is capped at
10 entries and `total_stores` counts only those. -/
theorem get_product_prices_truncates_witness :
    ∃ report, get_product_prices 1000000 [productA] repoEleven 1 10 true =
      some report ∧ report.prices.length ≤ 10 ∧
      report.total_stores = report.prices.length :=
  ⟨_, rfl,
    (get_product_prices_truncates 1000000 [productA] repoEleven 1 10 true _
      rfl).1,
    (get_product_prices_truncates 1000000 [productA] repoEleven 1 10 true _
      rfl).2.2.2.1⟩
